import Mathlib

/-!
Shallow embedding of the Diary Analytics & Insight Engine of
`ai-counsel-web/app/page.tsx`, together with theorems settling the frozen
claims about it.  JavaScript numbers are modelled as exact rationals (`ℚ`)
or integers (`ℤ`); `Math.round` is modelled as `⌊x + 1/2⌋` (JS rounds halves
toward `+∞`); 32-bit wrap-around is written explicitly with `% 2 ^ 32`;
JS strings are Lean `String`s compared lexicographically, and `Date` values
are modelled by a civil-calendar triple.
-/

namespace AiCounsel

/-- Models JS `Math.round`: nearest integer, halves toward positive infinity. -/
def jsRound (x : ℚ) : ℤ := ⌊x + 1 / 2⌋

/-- Models `clampMood` (page.tsx:744): `Math.max(1, Math.min(10, value))`. -/
def clampMood (value : ℚ) : ℚ := max 1 (min 10 value)

/-- Models `scoreFromMood` (page.tsx:734):
`Math.round(((Math.max(1, Math.min(10, mood)) - 1) / 9) * 100)`. -/
def scoreFromMood (mood : ℚ) : ℤ := jsRound ((clampMood mood - 1) / 9 * 100)

/-- Models `trendLabel` (page.tsx:738): `delta > 5` → "개선" (improving),
`delta < -5` → "하락" (declining), otherwise "유지" (stable). -/
def trendLabel (delta : ℤ) : String :=
  if delta > 5 then "개선" else if delta < -5 then "하락" else "유지"

/-- Models `averageMood` (page.tsx:748): `5` on the empty list, otherwise
`Math.round` of the sum of clamped values divided by the length. -/
def averageMood (values : List ℚ) : ℤ :=
  if values.length = 0 then 5
  else jsRound ((values.map clampMood).sum / values.length)

/-- Decimal digit character: `digitChar d` is the character for digit `d`. -/
def digitChar (d : ℕ) : Char := Char.ofNat (48 + d)

/-- Little-endian decimal digits of `n`, with explicit structural fuel so that
the kernel can evaluate it. -/
def digitsFuel : ℕ → ℕ → List ℕ
  | 0, _ => []
  | fuel + 1, n => if n = 0 then [] else n % 10 :: digitsFuel fuel (n / 10)

/-- Little-endian decimal digits of `n` (empty for `0`). -/
def natDigits (n : ℕ) : List ℕ := digitsFuel n n

/-- Models JS `String(n)` for a non-negative number: decimal representation. -/
def natRepr (n : ℕ) : String :=
  if n = 0 then "0" else ⟨((natDigits n).reverse.map digitChar)⟩

/-- Models JS `String(i)` for an integer. -/
def intRepr (i : ℤ) : String :=
  if i < 0 then "-" ++ natRepr i.natAbs else natRepr i.natAbs

/-- Models `pad2` (page.tsx:659): `String(value).padStart(2, "0")`. -/
def pad2 (n : ℕ) : String :=
  ⟨List.replicate (2 - (natRepr n).data.length) (digitChar 0) ++ (natRepr n).data⟩

/-- Lexicographic strict comparison of character lists, as JS `<` compares
strings (code-unit by code-unit; all characters used here are in the BMP). -/
def chListLt : List Char → List Char → Bool
  | _, [] => false
  | [], _ :: _ => true
  | a :: as, b :: bs => if a < b then true else if b < a then false else chListLt as bs

/-- Models JS string comparison `s < t` (lexicographic). -/
def jsStrLt (s t : String) : Bool := chListLt s.data t.data

/-- Models JS string comparison `s <= t` (lexicographic). -/
def jsStrLe (s t : String) : Bool := ! jsStrLt t s

/-- Civil calendar date, modelling a JS `Date` value (local calendar fields,
month `1`–`12`). -/
structure CivilDate where
  year : ℕ
  month : ℕ
  day : ℕ
deriving DecidableEq, Repr

/-- Gregorian leap-year rule. -/
def isLeap (y : ℕ) : Bool := (y % 4 = 0 && y % 100 ≠ 0) || y % 400 = 0

/-- Number of days in the given month of the given year. -/
def daysInMonth (y m : ℕ) : ℕ :=
  if m = 2 then (if isLeap y then 29 else 28)
  else if m = 4 ∨ m = 6 ∨ m = 9 ∨ m = 11 then 30
  else 31

/-- One calendar day earlier, crossing month and year boundaries: models the
effect of JS `date.setDate(date.getDate() - 1)`. -/
def prevDay (d : CivilDate) : CivilDate :=
  if 2 ≤ d.day then ⟨d.year, d.month, d.day - 1⟩
  else if 2 ≤ d.month then ⟨d.year, d.month - 1, daysInMonth d.year (d.month - 1)⟩
  else ⟨d.year - 1, 12, 31⟩

/-- Models `addDays(base, -n)` (page.tsx:667) for a backward offset. -/
def subDays (d : CivilDate) (n : ℕ) : CivilDate := prevDay^[n] d

/-- Models `dateInputValue` (page.tsx:663):
`${date.getFullYear()}-${pad2(date.getMonth() + 1)}-${pad2(date.getDate())}`. -/
def dateInputValue (d : CivilDate) : String :=
  natRepr d.year ++ "-" ++ pad2 d.month ++ "-" ++ pad2 d.day

/-- Day count since 0000-03-01 of a civil date (standard days-from-civil
computation), used to model the weekday of JS `Date.getDay`. -/
def civilDayNumber (d : CivilDate) : ℕ :=
  let y := if d.month ≤ 2 then d.year - 1 else d.year
  let era := y / 400
  let yoe := y % 400
  let mp := (d.month + 9) % 12
  let doy := (153 * mp + 2) / 5 + d.day - 1
  let doe := yoe * 365 + yoe / 4 - yoe / 100 + doy
  era * 146097 + doe

/-- Models JS `Date.getDay`: weekday index, `0` = Sunday. -/
def dayOfWeek (d : CivilDate) : ℕ := (civilDayNumber d + 3) % 7

/-- Chronological ranking of a civil date as a single natural number
(valid for `month ≤ 12`, `day ≤ 31`). -/
def toKeyNat (d : CivilDate) : ℕ := d.year * 10000 + d.month * 100 + d.day

/-- Validity of a civil date (month and day in calendar range, positive year). -/
def ValidDate (d : CivilDate) : Prop :=
  1 ≤ d.month ∧ d.month ≤ 12 ∧ 1 ≤ d.day ∧ d.day ≤ daysInMonth d.year d.month ∧ 1 ≤ d.year

instance : DecidablePred ValidDate := fun d => by unfold ValidDate; infer_instance

/-- Models JS `String.prototype.trim`: strip whitespace from both ends. -/
def jsTrim (s : String) : String :=
  ⟨((s.data.dropWhile Char.isWhitespace).reverse.dropWhile Char.isWhitespace).reverse⟩

/-- Helper for `strIncludes`: does `sub` occur at some position of the list? -/
def strIncludesAux (sub : List Char) : List Char → Bool
  | [] => sub.isPrefixOf []
  | c :: rest => sub.isPrefixOf (c :: rest) || strIncludesAux sub rest

/-- Models JS `s.includes(sub)`: substring occurrence test. -/
def strIncludes (s sub : String) : Bool := strIncludesAux sub.data s.data

/-- Models the `medicationRecord` sub-object of a `JournalEntry` (page.tsx:120
area): adherence status plus free-form metadata. -/
structure MedicationRecord where
  status : String
  times : List String
  name : String
  category : String
  note : String
  missedReason : String
deriving DecidableEq, Repr

/-- Models the `JournalEntry` rows consumed by the analytics code
(page.tsx:113): one dated record with 1–10 dimension ratings, emotion tags and
free text.  The numeric dimensions are integers as saved by the entry form. -/
structure JournalEntry where
  id : String
  date : String
  mood : ℤ
  energy : ℤ
  relationship : ℤ
  achievement : ℤ
  emotions : List String
  reflection : String
  text : String
  medicationRecord : Option MedicationRecord
deriving DecidableEq, Repr

/-- Models `WeeklyPoint` (page.tsx:141): one day of the trailing-7 window. -/
structure WeeklyPoint where
  date : String
  label : String
  mood : Option ℤ
  score : Option ℤ
  hasMedication : Bool
deriving DecidableEq, Repr

/-- Models the `byDate` first-seen-wins lookup inside `weeklyPoints`
(page.tsx:1464): the first entry of the list carrying the given date. -/
def firstEntryFor (journalList : List JournalEntry) (key : String) : Option JournalEntry :=
  journalList.find? (fun entry => entry.date = key)

/-- Models `weeklyPoints` (page.tsx:1463): for `i = 6` down to `0`, the day
`today - i` with the first matching entry projected to a point. -/
def weeklyPoints (journalList : List JournalEntry) (today : CivilDate) : List WeeklyPoint :=
  (List.range 7).map (fun j =>
    let i := 6 - j
    let day := subDays today i
    let key := dateInputValue day
    let entry := firstEntryFor journalList key
    { date := key
      label := natRepr day.month ++ "/" ++ natRepr day.day
      mood := entry.map (fun e => e.mood)
      score := entry.map (fun e => scoreFromMood (e.mood : ℚ))
      hasMedication := entry.elim false (fun e => e.medicationRecord.isSome) })

/-- Models the window-level aggregate returned by `weeklyStats`
(page.tsx:1511). -/
structure WeeklyStats where
  daysWithEntry : ℕ
  average : Option ℤ
  delta : ℤ
  trend : String
deriving DecidableEq, Repr

/-- The non-null scores of a list of points, in order: models
`points.filter((p) => p.score !== null)` projected to the scores. -/
def presentScores (points : List WeeklyPoint) : List ℤ := points.filterMap (fun p => p.score)

/-- Models `weeklyStats` (page.tsx:1488): window average over present scores,
first-half/second-half delta (0 when a half is empty), and the trend label. -/
def weeklyStats (points : List WeeklyPoint) : WeeklyStats :=
  let valid := presentScores points
  let average : Option ℤ :=
    if valid.length > 0 then some (jsRound ((valid.sum : ℚ) / valid.length)) else none
  let half := points.length / 2
  let first := presentScores (points.take half)
  let second := presentScores (points.drop half)
  let firstAvg : Option ℚ :=
    if first.length > 0 then some ((first.sum : ℚ) / first.length) else none
  let secondAvg : Option ℚ :=
    if second.length > 0 then some ((second.sum : ℚ) / second.length) else none
  let delta : ℤ :=
    match firstAvg, secondAvg with
    | some a, some b => jsRound (b - a)
    | _, _ => 0
  { daysWithEntry := valid.length
    average := average
    delta := delta
    trend := trendLabel delta }

/-- Models the `{start, end}` window bounds of `diaryAnalysisBounds`. -/
structure Bounds where
  start : String
  endDate : String
deriving DecidableEq, Repr

/-- The three analysis range kinds of `diaryAnalysisRange`: a calendar month,
an explicit custom start/end pair, or the trailing week. -/
inductive DiaryAnalysisRange where
  | monthly (analysisYear : ℕ) (analysisMonth : ℕ)
  | custom (startDate : String) (endDate : String)
  | weekly
deriving DecidableEq, Repr

/-- Models `diaryAnalysisBounds` (page.tsx:1666).  `monthly` uses the first
and last day of the selected month (the JS `new Date(year, month + 1, 0)`
trick yields the last day); `custom` falls back to today / to the start when a
field is empty and swaps a reversed pair; the default is the trailing 7 days
ending today. -/
def diaryAnalysisBounds (range : DiaryAnalysisRange) (now : CivilDate) : Bounds :=
  match range with
  | .monthly year month =>
      { start := dateInputValue ⟨year, month, 1⟩
        endDate := dateInputValue ⟨year, month, daysInMonth year month⟩ }
  | .custom startDate endDate =>
      let start := if startDate = "" then dateInputValue now else startDate
      let stop := if endDate = "" then start else endDate
      if jsStrLe start stop then { start := start, endDate := stop }
      else { start := stop, endDate := start }
  | .weekly =>
      { start := dateInputValue (subDays now 6), endDate := dateInputValue now }

/-- Models `diaryAnalysisEntries` (page.tsx:1685): the records whose date key
lies inside the window, in the order the record list provides them. -/
def diaryAnalysisEntries (journalList : List JournalEntry) (bounds : Bounds) :
    List JournalEntry :=
  journalList.filter
    (fun entry => jsStrLe bounds.start entry.date && jsStrLe entry.date bounds.endDate)

/-- Models the medication fragment of a digest line (page.tsx:1694). -/
def medsText (entry : JournalEntry) : String :=
  match entry.medicationRecord with
  | none => "(기록 없음)"
  | some med =>
      med.status
        ++ (if med.times.length ≠ 0 then " (" ++ String.intercalate "/" med.times ++ ")" else "")
        ++ (if med.name ≠ "" then " " ++ med.name else "")
        ++ (if med.category ≠ "" then " [" ++ med.category ++ "]" else "")
        ++ (if med.missedReason ≠ "" then " / 누락이유: " ++ med.missedReason else "")

/-- Models one rendered digest line of `diaryAnalysisEntryText`
(page.tsx:1701): date, the four dimension values, the emotion tag list (or the
"(없음)" marker), optionally the medication fragment, then the free text. -/
def entryLine (useMedicationContext : Bool) (entry : JournalEntry) : String :=
  let base := entry.date ++ " | 기분 " ++ intRepr entry.mood ++ "/10 | 에너지 "
    ++ intRepr entry.energy ++ "/10 | 관계 " ++ intRepr entry.relationship
    ++ "/10 | 성취 " ++ intRepr entry.achievement ++ "/10 | 감정 "
    ++ (let joined := String.intercalate ", " entry.emotions
        if joined ≠ "" then joined else "(없음)")
  let medPart := if useMedicationContext then " | 투약체크 " ++ medsText entry else ""
  base ++ medPart ++ " | 소감: "
    ++ (if entry.reflection ≠ "" then entry.reflection
        else if entry.text ≠ "" then entry.text else "(없음)")

/-- Models `diaryAnalysisEntryText` (page.tsx:1689): the digest handed to the
external assistant, one rendered line per filtered record joined by `"\n"`. -/
def diaryAnalysisEntryText (entries : List JournalEntry) (useMedicationContext : Bool) :
    String :=
  String.intercalate "\n" (entries.map (entryLine useMedicationContext))

/-- Models one value of `diaryEntryMetaMap` (page.tsx:1715): the per-date
aggregate over all records sharing that date. -/
structure DayMeta where
  hasEntry : Bool
  avgMood : Option ℤ
  hasMedication : Bool
deriving DecidableEq, Repr

/-- Models a `diaryEntryMetaMap.get(date)` lookup (page.tsx:1715): `none` when
no record carries the date, otherwise the aggregate over that date's records. -/
def dayMetaFor (journalList : List JournalEntry) (date : String) : Option DayMeta :=
  let entries := journalList.filter (fun entry => entry.date = date)
  if entries.length = 0 then none
  else some
    { hasEntry := true
      avgMood := some (averageMood (entries.map (fun entry => (entry.mood : ℚ))))
      hasMedication := entries.any (fun entry => entry.medicationRecord.isSome) }

/-- Models `moodHeatTone` (page.tsx:793). -/
def moodHeatTone (value : Option ℤ) : String :=
  match value with
  | none => "none"
  | some v => if v ≥ 7 then "good" else if v ≥ 4 then "mid" else "low"

/-- Models one cell of the `diaryMonthDays` calendar grid (page.tsx:1739). -/
structure DayCell where
  date : String
  day : ℕ
  hasEntry : Bool
  avgMood : Option ℤ
  hasMedication : Bool
  heatTone : String
  isFuture : Bool
deriving DecidableEq, Repr

/-- The blank leading cell pushed for each weekday slot before day 1
(page.tsx:1749). -/
def blankCell : DayCell :=
  { date := "", day := 0, hasEntry := false, avgMood := none, hasMedication := false
    heatTone := "none", isFuture := false }

/-- The dated cell for one calendar day (page.tsx:1762). -/
def monthDayCell (year month : ℕ) (journalList : List JournalEntry) (today : String)
    (day : ℕ) : DayCell :=
  let date := dateInputValue ⟨year, month, day⟩
  let meta := dayMetaFor journalList date
  let avgMood := (meta.map (fun m => m.avgMood)).getD none
  { date := date
    day := day
    hasEntry := (meta.map (fun m => m.hasEntry)).getD false
    avgMood := avgMood
    hasMedication := (meta.map (fun m => m.hasMedication)).getD false
    heatTone := moodHeatTone avgMood
    isFuture := jsStrLt today date }

/-- Models `diaryMonthDays` (page.tsx:1733): the weekday index of day 1 many
blank cells, then one dated cell per calendar day of the month. -/
def diaryMonthDays (year month : ℕ) (journalList : List JournalEntry) (today : String) :
    List DayCell :=
  let leading := dayOfWeek ⟨year, month, 1⟩
  let totalDays := daysInMonth year month
  List.replicate leading blankCell
    ++ (List.range totalDays).map (fun j => monthDayCell year month journalList today (j + 1))

/-- Models the value of `diaryInsights` (page.tsx:1779). -/
structure DiaryInsights where
  streak : ℕ
  toughestDay : String
  strongestDay : String
deriving DecidableEq, Repr

/-- Models the backward `while (true)` walk of `diaryInsights`
(page.tsx:1786), with explicit fuel standing in for the termination argument:
the walk stops at the first missing day, which arrives before the fuel runs
out because each present day consumes a distinct date of the finite set. -/
def streakLoop (dateSet : List String) (today : CivilDate) : ℕ → ℕ → ℕ
  | 0, streak => streak
  | fuel + 1, streak =>
      if dateSet.contains (dateInputValue (subDays today streak)) then
        streakLoop dateSet today fuel (streak + 1)
      else streak

/-- The running strict-minimum fold of `diaryInsights` (page.tsx:1795):
`if (entry.mood < minEntry.mood) minEntry = entry` over the record list. -/
def minMoodEntry (v0 : JournalEntry) (l : List JournalEntry) : JournalEntry :=
  l.foldl (fun mn e => if e.mood < mn.mood then e else mn) v0

/-- The running strict-maximum fold of `diaryInsights` (page.tsx:1796):
`if (entry.mood > maxEntry.mood) maxEntry = entry` over the record list. -/
def maxMoodEntry (v0 : JournalEntry) (l : List JournalEntry) : JournalEntry :=
  l.foldl (fun mx e => if e.mood > mx.mood then e else mx) v0

/-- Models `diaryInsights` (page.tsx:1779): streak from today backward over
the full record set, plus the first-encountered strict-minimum and
strict-maximum mood records.  The source first filters on
`Number.isFinite(entry.mood)`, which holds for every integer mood, so the
filtered list is the record list itself. -/
def diaryInsights (journalList : List JournalEntry) (today : CivilDate) : DiaryInsights :=
  match journalList with
  | [] => { streak := 0, toughestDay := "-", strongestDay := "-" }
  | v0 :: _ =>
      let valid := journalList
      let dateSet := valid.map (fun entry => entry.date)
      let streak := streakLoop dateSet today (dateSet.length + 1) 0
      let minEntry := minMoodEntry v0 valid
      let maxEntry := maxMoodEntry v0 valid
      { streak := streak
        toughestDay := minEntry.date ++ " (" ++ intRepr minEntry.mood ++ "/10)"
        strongestDay := maxEntry.date ++ " (" ++ intRepr maxEntry.mood ++ "/10)" }

/-- Models `FortuneTemplate` (page.tsx:188). -/
structure FortuneTemplate where
  id : String
  tone : String
  fortune : String
  mission : String
  prompt : String
  keywords : List String
deriving DecidableEq, Repr

/-- Models the fixed `fortuneTemplates` catalog (page.tsx:536). -/
def fortuneTemplates : List FortuneTemplate :=
  [ { id := "energy-reset", tone := "energy"
      fortune := "오늘은 예상보다 쉽게 지칠 수 있어요. 속도를 잠깐 늦추면 흐름이 다시 살아납니다."
      mission := "에너지가 떨어진 순간 1개와 회복에 도움 된 행동 1개를 기록해보세요."
      prompt := "오늘 내가 지친 순간은 언제였고, 어떻게 회복했나요?"
      keywords := ["지침", "피곤", "휴식", "회복", "호흡"] },
    { id := "focus-window", tone := "focus"
      fortune := "집중력이 짧게 끊길 수 있지만, 핵심 한 가지를 잡으면 성취감이 커지는 날입니다."
      mission := "오늘 가장 중요한 한 가지에 집중한 경험을 적어보세요."
      prompt := "오늘 내가 가장 집중했던 한 가지는 무엇이었나요?"
      keywords := ["집중", "몰입", "핵심", "정리", "완료"] },
    { id := "relationship-soft", tone := "relationship"
      fortune := "사소한 말투가 크게 느껴질 수 있어요. 한 번 더 부드럽게 말하면 관계가 풀립니다."
      mission := "대화에서 감정이 흔들린 순간과 조정한 표현을 적어보세요."
      prompt := "오늘 대화에서 내가 바꿔 말해본 표현이 있었나요?"
      keywords := ["대화", "관계", "표현", "말투", "이해"] },
    { id := "confidence-step", tone := "confidence"
      fortune := "작은 선택 하나가 자신감을 키우는 날입니다. 완벽보다 실행이 더 중요해요."
      mission := "완벽하지 않아도 실행한 행동 1개를 기록해보세요."
      prompt := "오늘 완벽하지 않아도 해낸 행동은 무엇이었나요?"
      keywords := ["실행", "도전", "시도", "용기", "자신감"] },
    { id := "energy-balance", tone := "energy"
      fortune := "무리하면 후반에 급격히 지칠 수 있어요. 중간 휴식이 오히려 결과를 좋게 만듭니다."
      mission := "중간 휴식 또는 템포 조절 경험을 한 줄로 남겨보세요."
      prompt := "오늘 속도를 조절한 순간이 있었나요?"
      keywords := ["속도", "휴식", "템포", "조절", "회복"] },
    { id := "focus-clean", tone := "focus"
      fortune := "잡생각이 늘 수 있지만, 우선순위를 정리하면 하루가 다시 명확해집니다."
      mission := "우선순위를 다시 정한 계기와 효과를 기록해보세요."
      prompt := "오늘 우선순위를 다시 정한 순간은 언제였나요?"
      keywords := ["우선순위", "정리", "집중", "계획", "선택"] },
    { id := "relationship-repair", tone := "relationship"
      fortune := "오해가 생겨도 회복 가능한 날이에요. 짧은 확인 질문이 관계를 살립니다."
      mission := "오해를 줄이기 위해 던진 질문 또는 확인 문장을 적어보세요."
      prompt := "오늘 내가 확인했던 질문은 무엇이었나요?"
      keywords := ["오해", "확인", "질문", "관계", "회복"] },
    { id := "confidence-ground", tone := "confidence"
      fortune := "스스로를 의심하기 쉬운 날이지만, 이미 해낸 경험을 떠올리면 흔들림이 줄어듭니다."
      mission := "오늘 나를 지탱한 과거의 성공 경험을 한 줄로 적어보세요."
      prompt := "오늘 나를 지탱해준 경험은 무엇이었나요?"
      keywords := ["성공", "기억", "근거", "자신감", "안정"] } ]

/-- Models `hashText` (page.tsx:693): the rolling `hash * 31 + code` hash with
`>>> 0` wrapping each step to an unsigned 32-bit value. -/
def hashText (value : String) : ℕ :=
  value.data.foldl (fun hash c => (hash * 31 + c.toNat) % 4294967296) 0

/-- Models `pickDailyFortune` (page.tsx:701): hash the
`"${date}:${userSeed || \x22guest\x22}"` seed and index the catalog modulo its
length. -/
def pickDailyFortune (date : String) (userSeed : String) : FortuneTemplate :=
  let seed := date ++ ":" ++ (if userSeed = "" then "guest" else userSeed)
  fortuneTemplates.get ⟨hashText seed % fortuneTemplates.length, Nat.mod_lt _ (by decide)⟩

/-- Models `REFLECTION_PROMPT_DAILY_LIMIT` (page.tsx:502). -/
def REFLECTION_PROMPT_DAILY_LIMIT : ℕ := 3

/-- Models `reflectionPromptThemes` (page.tsx:503). -/
def reflectionPromptThemes : List String :=
  ["오늘 가장 기억에 남는 순간", "오늘 나를 지치게 한 장면", "오늘 마음이 편해졌던 시간",
   "오늘 가장 고마웠던 일", "오늘 후회가 남는 선택", "오늘 다시 하고 싶은 대화",
   "오늘 가장 자랑스러웠던 행동", "오늘 미뤄둔 일", "오늘 감정이 크게 흔들린 이유",
   "오늘 몸의 신호가 강했던 순간", "오늘 관계에서 어려웠던 지점", "오늘 관계에서 좋았던 지점",
   "오늘 내가 나를 돌본 방식", "오늘 집중이 잘 되었던 조건", "오늘 집중을 방해한 요소",
   "오늘 에너지가 올라간 계기", "오늘 에너지가 떨어진 계기", "오늘 불안을 키운 생각",
   "오늘 안정을 준 생각", "오늘 배운 가장 중요한 한 가지", "오늘 놓치고 싶지 않은 깨달음",
   "오늘 내가 붙잡고 있는 걱정", "오늘 작지만 의미 있었던 성취", "오늘 내일로 넘기고 싶은 일",
   "오늘 내일에 꼭 이어가고 싶은 습관"]

/-- Models `reflectionPromptPool` (page.tsx:530): four question variants per
theme. -/
def reflectionPromptPool : List String :=
  reflectionPromptThemes.flatMap (fun theme =>
    [theme ++ "은(는) 언제였나요?",
     theme ++ "가 생긴 직접적인 계기는 무엇이었나요?",
     theme ++ "에서 내가 배운 점은 무엇이었나요?",
     "내일 " ++ theme ++ "를 위해 바꾸고 싶은 한 가지는 무엇인가요?"])

/-- Models `reflectionPromptUsageKey` (page.tsx:673): the external counter key
is derived from the date alone. -/
def reflectionPromptUsageKey (date : String) : String :=
  "reflection_prompt_count:" ++ date

/-- The external per-key counter store (`window.localStorage` holding parsed
numbers): `none` models an absent key. -/
def Store : Type := String → Option ℤ

/-- Models `getReflectionPromptUsage` (page.tsx:680): absent, non-finite or
negative stored values read as `0`. -/
def getReflectionPromptUsage (store : Store) (date : String) : ℕ :=
  match store (reflectionPromptUsageKey date) with
  | none => 0
  | some parsed => if parsed < 0 then 0 else parsed.toNat

/-- Models `setReflectionPromptUsage` (page.tsx:688): persist
`max 0 count` under the date's key. -/
def setReflectionPromptUsage (store : Store) (date : String) (count : ℤ) : Store :=
  fun key => if key = reflectionPromptUsageKey date then some (max 0 count) else store key

/-- The observable outcome of one `addReflectionPrompt` call: whether a prompt
was inserted, the store to persist, the new free-text buffer, the counter
shown, and the user message. -/
structure PromptStepResult where
  inserted : Bool
  store : Store
  reflection : String
  count : ℕ
  message : String

/-- Models `addReflectionPrompt` (page.tsx:2337).  `pick` stands for the
`Math.floor(Math.random() * pool.length)` draw; the code indexes the pool with
it, modelled as `pick % pool.length`. -/
def addReflectionPrompt (store : Store) (date : String) (reflection : String) (pick : ℕ) :
    PromptStepResult :=
  let used := getReflectionPromptUsage store date
  if used ≥ REFLECTION_PROMPT_DAILY_LIMIT then
    { inserted := false, store := store, reflection := reflection, count := used
      message := "오늘은 보조 질문을 3번 모두 사용했습니다." }
  else
    let available := reflectionPromptPool.filter (fun prompt => ! strIncludes reflection prompt)
    let pool := if available.length > 0 then available else reflectionPromptPool
    let prompt := pool.getD (pick % pool.length) ""
    let newReflection :=
      if jsTrim reflection ≠ "" then jsTrim reflection ++ "\n\n" ++ prompt ++ "\n"
      else prompt ++ "\n"
    let nextCount := used + 1
    { inserted := true
      store := setReflectionPromptUsage store date (nextCount : ℤ)
      reflection := newReflection
      count := nextCount
      message := "보조 질문 사용 " ++ natRepr nextCount ++ "/"
        ++ natRepr REFLECTION_PROMPT_DAILY_LIMIT }

/-! ### Helper lemmas -/

/-- `jsRound` agrees with the mathematical floor of `x + 1/2`. -/
theorem jsRound_eq (x : ℚ) : jsRound x = ⌊x + 1 / 2⌋ := by
  simp [jsRound, Rat.floor_def', Rat.floor_def]

/-- Evaluation principle for `jsRound` used on concrete inputs. -/
theorem jsRound_eq_of {x : ℚ} {n : ℤ} (h1 : (n : ℚ) ≤ x + 1 / 2) (h2 : x + 1 / 2 < n + 1) :
    jsRound x = n := by
  rw [jsRound_eq]
  exact Int.floor_eq_iff.mpr ⟨h1, by exact_mod_cast h2⟩

theorem jsRound_le {x : ℚ} {n : ℤ} (h : x < (n : ℚ) + 1 / 2) : jsRound x ≤ n := by
  rw [jsRound_eq]
  have : ⌊x + 1 / 2⌋ < n + 1 := Int.floor_lt.mpr (by push_cast; linarith)
  omega

theorem le_jsRound {x : ℚ} {n : ℤ} (h : (n : ℚ) - 1 / 2 ≤ x) : n ≤ jsRound x := by
  rw [jsRound_eq]
  exact Int.le_floor.mpr (by linarith)

theorem clampMood_bounds (v : ℚ) : 1 ≤ clampMood v ∧ clampMood v ≤ 10 := by
  unfold clampMood
  constructor
  · exact le_max_left _ _
  · exact max_le (by norm_num) (min_le_left _ _)

/-- The first-half present scores of a weekly point list
(`points.slice(0, half)` filtered to non-null scores). -/
def firstHalfScores (points : List WeeklyPoint) : List ℤ :=
  presentScores (points.take (points.length / 2))

/-- The second-half present scores of a weekly point list
(`points.slice(half)` filtered to non-null scores). -/
def secondHalfScores (points : List WeeklyPoint) : List ℤ :=
  presentScores (points.drop (points.length / 2))

/-! ### C9: composite rating -/

/-- C9: `averageMood` returns the neutral midpoint 5 on the empty list and
otherwise the `Math.round` of the arithmetic mean of the values clamped to
`[1, 10]`; in every case the result is an integer in `[1, 10]`. -/
theorem averageMood_composite_spec :
    averageMood [] = 5
      ∧ (∀ (v : ℚ) (vs : List ℚ),
          averageMood (v :: vs) =
            jsRound (((v :: vs).map clampMood).sum / ((v :: vs).length : ℚ)))
      ∧ (∀ values : List ℚ, 1 ≤ averageMood values ∧ averageMood values ≤ 10) := by
  refine ⟨rfl, fun v vs => by simp [averageMood], fun values => ?_⟩
  rcases values with _ | ⟨v, vs⟩
  · constructor <;> norm_num [averageMood]
  · have hlen : ((v :: vs).length : ℚ) > 0 := by exact_mod_cast Nat.succ_pos vs.length
    set l := (v :: vs).map clampMood with hl
    have hlenl : l.length = (v :: vs).length := by simp [hl]
    have hlow : ((v :: vs).length : ℚ) * 1 ≤ l.sum := by
      have := List.card_nsmul_le_sum (l := l) (n := (1 : ℚ))
        (fun x hx => by
          rcases List.mem_map.mp (hl ▸ hx) with ⟨y, _, rfl⟩
          exact (clampMood_bounds y).1)
      rw [hlenl] at this
      simpa [nsmul_eq_mul] using this
    have hhigh : l.sum ≤ ((v :: vs).length : ℚ) * 10 := by
      have := List.sum_le_card_nsmul (l := l) (n := (10 : ℚ))
        (fun x hx => by
          rcases List.mem_map.mp (hl ▸ hx) with ⟨y, _, rfl⟩
          exact (clampMood_bounds y).2)
      rw [hlenl] at this
      simpa [nsmul_eq_mul] using this
    have havg1 : (1 : ℚ) ≤ l.sum / ((v :: vs).length : ℚ) := by
      rw [le_div_iff₀ hlen]; linarith
    have havg2 : l.sum / ((v :: vs).length : ℚ) ≤ 10 := by
      rw [div_le_iff₀ hlen]; linarith
    have hav : averageMood (v :: vs) = jsRound (l.sum / ((v :: vs).length : ℚ)) := by
      simp [averageMood, hl]
    rw [hav]
    constructor
    · exact le_jsRound (by push_cast; linarith)
    · exact jsRound_le (by push_cast; linarith)

/-! ### C3: trend computation -/

/-- C3: the trend delta of `weeklyStats` is the rounded difference of the
second-half and first-half averages over each half's own present scores when
both halves have one, and `0` otherwise; the label is "개선" (improving) iff
`delta > 5`, "하락" (declining) iff `delta < -5`, and "유지" (stable)
otherwise — in particular whenever at least one half has no present score. -/
theorem weeklyStats_trend_spec (points : List WeeklyPoint) :
    ((weeklyStats points).delta =
        if (firstHalfScores points).length ≠ 0 ∧ (secondHalfScores points).length ≠ 0 then
          jsRound (((secondHalfScores points).sum : ℚ) / (secondHalfScores points).length
            - ((firstHalfScores points).sum : ℚ) / (firstHalfScores points).length)
        else 0)
      ∧ ((weeklyStats points).trend =
        if (weeklyStats points).delta > 5 then "개선"
        else if (weeklyStats points).delta < -5 then "하락" else "유지")
      ∧ ((firstHalfScores points).length = 0 ∨ (secondHalfScores points).length = 0 →
          (weeklyStats points).trend = "유지") := by
  have hdelta : (weeklyStats points).delta =
      if (firstHalfScores points).length ≠ 0 ∧ (secondHalfScores points).length ≠ 0 then
        jsRound (((secondHalfScores points).sum : ℚ) / (secondHalfScores points).length
          - ((firstHalfScores points).sum : ℚ) / (firstHalfScores points).length)
      else 0 := by
    simp only [weeklyStats, firstHalfScores, secondHalfScores]
    split_ifs with h1 h2 h3 <;> simp_all [Nat.pos_iff_ne_zero]
  refine ⟨hdelta, by simp [weeklyStats, trendLabel], fun h => ?_⟩
  have hz : (weeklyStats points).delta = 0 := by
    rw [hdelta, if_neg]
    tauto
  have ht : (weeklyStats points).trend = trendLabel (weeklyStats points).delta := by
    simp [weeklyStats]
  rw [ht, hz]
  rfl

/-! ### C7: deterministic guidance selection -/

/-- C7: `pickDailyFortune` is a pure function of `(date, userSeed)` given by
the stable rolling hash of the joined seed modulo the catalog length, so two
evaluations always agree; the empty owner key falls back to the literal
`"guest"` seed and the selection is always a member of the non-empty catalog. -/
theorem pickDailyFortune_deterministic_spec (date userSeed : String) :
    pickDailyFortune date userSeed =
        fortuneTemplates.get
          ⟨hashText (date ++ ":" ++ (if userSeed = "" then "guest" else userSeed)) %
              fortuneTemplates.length,
            Nat.mod_lt _ (by decide)⟩
      ∧ pickDailyFortune date "" = pickDailyFortune date "guest"
      ∧ pickDailyFortune date userSeed ∈ fortuneTemplates
      ∧ 0 < fortuneTemplates.length := by
  exact ⟨rfl, rfl, List.get_mem _ _ _, by decide⟩

/-- Witness for `weeklyStats_trend_spec`: on an empty point list both halves
are empty and the trend is "유지" (stable). -/
theorem weeklyStats_trend_spec_witness :
    ((firstHalfScores ([] : List WeeklyPoint)).length = 0
        ∨ (secondHalfScores ([] : List WeeklyPoint)).length = 0)
      ∧ (weeklyStats ([] : List WeeklyPoint)).trend = "유지" :=
  ⟨Or.inl (by decide), (weeklyStats_trend_spec []).2.2 (Or.inl (by decide))⟩

/-! ### C1: end-to-end weekly scenario -/

/-- The two records of the end-to-end scenario: mood 8 on 2024-05-01 and
mood 2 on 2024-05-02. -/
def c1Records : List JournalEntry :=
  [⟨"r1", "2024-05-01", 8, 5, 5, 5, [], "", "", none⟩,
   ⟨"r2", "2024-05-02", 2, 5, 5, 5, [], "", "", none⟩]

/-- The scenario anchors "today" at 2024-05-02, so the trailing-7 window is
2024-04-26 … 2024-05-02. -/
def c1Today : CivilDate := ⟨2024, 5, 2⟩

theorem scoreFromMood_eight : scoreFromMood ((8 : ℤ) : ℚ) = 78 := by
  have h : clampMood ((8 : ℤ) : ℚ) = 8 := by norm_num [clampMood]
  rw [scoreFromMood, h]
  exact jsRound_eq_of (by norm_num) (by norm_num)

theorem scoreFromMood_two : scoreFromMood ((2 : ℤ) : ℚ) = 11 := by
  have h : clampMood ((2 : ℤ) : ℚ) = 2 := by norm_num [clampMood]
  rw [scoreFromMood, h]
  exact jsRound_eq_of (by norm_num) (by norm_num)

/-- The seven points of the scenario window: five empty days, then scores 78
and 11. -/
theorem c1_points : weeklyPoints c1Records c1Today =
    [⟨"2024-04-26", "4/26", none, none, false⟩,
     ⟨"2024-04-27", "4/27", none, none, false⟩,
     ⟨"2024-04-28", "4/28", none, none, false⟩,
     ⟨"2024-04-29", "4/29", none, none, false⟩,
     ⟨"2024-04-30", "4/30", none, none, false⟩,
     ⟨"2024-05-01", "5/1", some 8, some 78, false⟩,
     ⟨"2024-05-02", "5/2", some 2, some 11, false⟩] := by
  rw [show (78 : ℤ) = scoreFromMood ((8 : ℤ) : ℚ) from scoreFromMood_eight.symm,
      show (11 : ℤ) = scoreFromMood ((2 : ℤ) : ℚ) from scoreFromMood_two.symm]
  simp +decide [weeklyPoints, firstEntryFor, c1Records, c1Today, List.range_succ]

/-- The aggregate the code actually produces on the scenario: average 45
(`Math.round(44.5)` rounds up), delta 0 (the first half 04-26 … 04-28 has no
present score), trend "유지" (stable). -/
theorem c1_stats : weeklyStats (weeklyPoints c1Records c1Today) =
    { daysWithEntry := 2, average := some 45, delta := 0, trend := "유지" } := by
  have h45 : jsRound ((89 : ℚ) / 2) = 45 := jsRound_eq_of (by norm_num) (by norm_num)
  rw [c1_points]
  simp +decide [weeklyStats, presentScores, trendLabel]
  rw [h45]

/-- C1 counterexample: on the scenario records with the trailing-7 window
ending 2024-05-02, the aggregation engine does not return average 44, delta
-67 and trend "declining" — `Math.round((78 + 11) / 2) = 45` (halves round
up), and the half split is on the 7-day window (`floor(7/2) = 3`), whose first
half has no data, so delta is 0 and the trend is "유지" (stable). -/
theorem weeklyStats_scenario_counterexample :
    ¬ ((weeklyStats (weeklyPoints c1Records c1Today)).average = some 44
        ∧ (weeklyStats (weeklyPoints c1Records c1Today)).delta = -67
        ∧ (weeklyStats (weeklyPoints c1Records c1Today)).trend = "하락") := by
  rw [c1_stats]
  decide

/-- C1 amended: on the scenario records with the trailing-7 window ending
2024-05-02 the engine returns 2 days with entries, window average 45, delta 0
(the first half of the 7-day window has no present day), and trend "유지"
(stable). -/
theorem weeklyStats_scenario_amended :
    (weeklyStats (weeklyPoints c1Records c1Today)).daysWithEntry = 2
      ∧ (weeklyStats (weeklyPoints c1Records c1Today)).average = some 45
      ∧ (weeklyStats (weeklyPoints c1Records c1Today)).delta = 0
      ∧ (weeklyStats (weeklyPoints c1Records c1Today)).trend = "유지" := by
  rw [c1_stats]
  exact ⟨rfl, rfl, rfl, rfl⟩

/-! ### C2: digest composition order and content -/

/-- Record with a tag, dated 2024-05-01, for the digest scenario. -/
def c2EntryA : JournalEntry :=
  ⟨"a", "2024-05-01", 8, 6, 7, 5, ["기쁨"], "좋은 하루", "", none⟩

/-- Record without tags, dated 2024-05-02, for the digest scenario. -/
def c2EntryB : JournalEntry :=
  ⟨"b", "2024-05-02", 2, 3, 4, 5, [], "", "", none⟩

/-- The window 2024-05-01 … 2024-05-02 for the digest scenario. -/
def c2Bounds : Bounds := { start := "2024-05-01", endDate := "2024-05-02" }

/-- C2 counterexample: the digest composer does not sort the filtered records
by date ascending — it preserves the given record-list order.  With the store
order (date descending) `[B(05-02), A(05-01)]` and a window containing both
days, the rendered digest lists 05-02 before 05-01, and differs from the
ascending rendering. -/
theorem digest_order_counterexample :
    diaryAnalysisEntryText (diaryAnalysisEntries [c2EntryB, c2EntryA] c2Bounds) false
        = entryLine false c2EntryB ++ "\n" ++ entryLine false c2EntryA
      ∧ diaryAnalysisEntryText (diaryAnalysisEntries [c2EntryB, c2EntryA] c2Bounds) false
        ≠ entryLine false c2EntryA ++ "\n" ++ entryLine false c2EntryB := by
  constructor
  · decide
  · decide

theorem strIncludesAux_of_suffix (sub l1 l2 : List Char) (h : sub.isPrefixOf l2 = true) :
    strIncludesAux sub (l1 ++ l2) = true := by
  induction l1 with
  | nil =>
      cases l2 with
      | nil => simpa [strIncludesAux] using h
      | cons c rest => simp [strIncludesAux, h]
  | cons c rest ih => simp [strIncludesAux, ih]

theorem strIncludesAux_append_left (sub l1 l2 : List Char)
    (h : strIncludesAux sub l2 = true) : strIncludesAux sub (l1 ++ l2) = true := by
  induction l1 with
  | nil => simpa using h
  | cons c rest ih => simp [strIncludesAux, ih]

theorem strIncludesAux_self (sub l2 : List Char) : strIncludesAux sub (sub ++ l2) = true := by
  simpa using strIncludesAux_of_suffix sub [] (sub ++ l2)
    (List.isPrefixOf_iff_prefix.mpr (List.prefix_append _ _))

/-- C2 amended: the digest composer filters the records to the window and
renders them in the given record-list order (the store supplies that list
date-descending; there is no ascending sort), producing one rendered line per
filtered record joined by newlines; a record with an empty tag set gets the
explicit "(없음)" marker in its line. -/
theorem digest_render_spec (journalList : List JournalEntry) (bounds : Bounds)
    (flag : Bool) :
    diaryAnalysisEntryText (diaryAnalysisEntries journalList bounds) flag
        = String.intercalate "\n"
            ((journalList.filter (fun e =>
                jsStrLe bounds.start e.date && jsStrLe e.date bounds.endDate)).map
              (entryLine flag))
      ∧ ∀ e : JournalEntry, e.emotions = [] →
          strIncludes (entryLine flag e) "(없음)" = true := by
  refine ⟨rfl, fun e he => ?_⟩
  have hline : entryLine flag e =
      ((e.date ++ " | 기분 " ++ intRepr e.mood ++ "/10 | 에너지 "
          ++ intRepr e.energy ++ "/10 | 관계 " ++ intRepr e.relationship
          ++ "/10 | 성취 " ++ intRepr e.achievement ++ "/10 | 감정 " ++ "(없음)")
        ++ (if flag then " | 투약체크 " ++ medsText e else "") ++ " | 소감: ")
        ++ (if e.reflection ≠ "" then e.reflection
            else if e.text ≠ "" then e.text else "(없음)") := by
    unfold entryLine
    rw [he]
    rfl
  rw [strIncludes, hline]
  simp only [String.data_append, List.append_assoc]
  repeat
    first
    | exact strIncludesAux_self _ _
    | apply strIncludesAux_append_left

/-- Witness for `digest_render_spec`: the tagless record of the scenario gets
the "(없음)" marker. -/
theorem digest_render_spec_witness :
    strIncludes (entryLine false c2EntryB) "(없음)" = true :=
  (digest_render_spec [c2EntryB] c2Bounds false).2 c2EntryB rfl

/-! ### C8: assistive-prompt budget -/

/-- An empty external counter store. -/
def c8StoreEmpty : Store := fun _ => none

/-- A store in which the 2024-05-01 prompt counter already reads 3. -/
def c8StoreFull : Store :=
  fun key => if key = reflectionPromptUsageKey "2024-05-01" then some 3 else none

/-- C8 counterexample: the stored prompt counter is not per-owner — the
storage key is built from the date alone, with no owner component, so every
owner of the same storage shares one counter: starting from an empty store,
three injections (by whichever owner) exhaust the date's budget and a fourth
call on that date is refused with the stored count still 3, even though a
fresh owner has injected nothing. -/
theorem promptBudget_owner_counterexample :
    reflectionPromptUsageKey "2024-05-01" = "reflection_prompt_count:2024-05-01"
      ∧ (addReflectionPrompt c8StoreEmpty "2024-05-01" "" 0).inserted = true
      ∧ (addReflectionPrompt
          (addReflectionPrompt c8StoreEmpty "2024-05-01" "" 0).store
          "2024-05-01" "" 0).inserted = true
      ∧ (addReflectionPrompt
          (addReflectionPrompt
            (addReflectionPrompt c8StoreEmpty "2024-05-01" "" 0).store
            "2024-05-01" "" 0).store
          "2024-05-01" "" 0).inserted = true
      ∧ getReflectionPromptUsage
          (addReflectionPrompt
            (addReflectionPrompt
              (addReflectionPrompt c8StoreEmpty "2024-05-01" "" 0).store
              "2024-05-01" "" 0).store
            "2024-05-01" "" 0).store "2024-05-01" = 3
      ∧ (addReflectionPrompt
          (addReflectionPrompt
            (addReflectionPrompt
              (addReflectionPrompt c8StoreEmpty "2024-05-01" "" 0).store
              "2024-05-01" "" 0).store
            "2024-05-01" "" 0).store
          "2024-05-01" "" 0).inserted = false := by
  refine ⟨by decide, by decide, by decide, by decide, by decide, by decide⟩

/-- C8 amended: the budget is a per-day counter (keyed by the date only and
therefore shared by every owner of the same storage) with ceiling 3: a call is
eligible iff the stored count is strictly below 3; when eligible exactly one
pool prompt is appended to the buffer and the persisted count is the previous
count plus one (other keys untouched); at the ceiling nothing is inserted and
the store and buffer are unchanged. -/
theorem promptBudget_step_spec (store : Store) (date reflection : String) (pick : ℕ) :
    (getReflectionPromptUsage store date < 3 →
        (addReflectionPrompt store date reflection pick).inserted = true
          ∧ getReflectionPromptUsage (addReflectionPrompt store date reflection pick).store
              date = getReflectionPromptUsage store date + 1
          ∧ (addReflectionPrompt store date reflection pick).count
              = getReflectionPromptUsage store date + 1
          ∧ (∀ key, key ≠ reflectionPromptUsageKey date →
              (addReflectionPrompt store date reflection pick).store key = store key)
          ∧ ∃ prompt ∈ reflectionPromptPool,
              (addReflectionPrompt store date reflection pick).reflection =
                (if jsTrim reflection ≠ "" then jsTrim reflection ++ "\n\n" ++ prompt ++ "\n"
                 else prompt ++ "\n"))
      ∧ (3 ≤ getReflectionPromptUsage store date →
          (addReflectionPrompt store date reflection pick).inserted = false
            ∧ (addReflectionPrompt store date reflection pick).store = store
            ∧ (addReflectionPrompt store date reflection pick).reflection = reflection) := by
  constructor
  · intro hlt
    have hnot : ¬ getReflectionPromptUsage store date ≥ REFLECTION_PROMPT_DAILY_LIMIT := by
      simpa [REFLECTION_PROMPT_DAILY_LIMIT] using hlt
    refine ⟨?_, ?_, ?_, ?_, ?_⟩
    · simp [addReflectionPrompt, hnot]
    · have hstore : (addReflectionPrompt store date reflection pick).store
          (reflectionPromptUsageKey date)
          = some (max 0 ((getReflectionPromptUsage store date : ℤ) + 1)) := by
        simp [addReflectionPrompt, hnot, setReflectionPromptUsage]
      have hmax : max 0 ((getReflectionPromptUsage store date : ℤ) + 1)
          = (getReflectionPromptUsage store date : ℤ) + 1 :=
        max_eq_right (by positivity)
      rw [hmax] at hstore
      conv_lhs => rw [getReflectionPromptUsage, hstore]
      simp only [if_neg (by omega : ¬ ((getReflectionPromptUsage store date : ℤ) + 1 < 0))]
      omega
    · simp [addReflectionPrompt, hnot]
    · intro key hkey
      simp [addReflectionPrompt, hnot, setReflectionPromptUsage, hkey]
    · refine ⟨(if (reflectionPromptPool.filter
          (fun prompt => ! strIncludes reflection prompt)).length > 0 then
            reflectionPromptPool.filter (fun prompt => ! strIncludes reflection prompt)
          else reflectionPromptPool).getD
            (pick % (if (reflectionPromptPool.filter
              (fun prompt => ! strIncludes reflection prompt)).length > 0 then
                reflectionPromptPool.filter (fun prompt => ! strIncludes reflection prompt)
              else reflectionPromptPool).length) "", ?_, ?_⟩
      · have hpos : 0 < (if (reflectionPromptPool.filter
            (fun prompt => ! strIncludes reflection prompt)).length > 0 then
              reflectionPromptPool.filter (fun prompt => ! strIncludes reflection prompt)
            else reflectionPromptPool).length := by
          split_ifs with h
          · exact h
          · decide
        have hmemsub := List.getElem_mem (l := (if (reflectionPromptPool.filter
            (fun prompt => ! strIncludes reflection prompt)).length > 0 then
              reflectionPromptPool.filter (fun prompt => ! strIncludes reflection prompt)
            else reflectionPromptPool))
          (n := pick % (if (reflectionPromptPool.filter
            (fun prompt => ! strIncludes reflection prompt)).length > 0 then
              reflectionPromptPool.filter (fun prompt => ! strIncludes reflection prompt)
            else reflectionPromptPool).length) (Nat.mod_lt _ hpos)
        rw [List.getD_eq_getElem _ _ (Nat.mod_lt _ hpos)]
        revert hmemsub
        split_ifs with h
        · exact fun hm => List.mem_of_mem_filter hm
        · exact fun hm => hm
      · simp [addReflectionPrompt, hnot]
  · intro hge
    have h : getReflectionPromptUsage store date ≥ REFLECTION_PROMPT_DAILY_LIMIT := by
      simpa [REFLECTION_PROMPT_DAILY_LIMIT] using hge
    refine ⟨?_, ?_, ?_⟩ <;> simp [addReflectionPrompt, h]

/-- Witness for `promptBudget_step_spec`: on an empty store the first call
inserts; on a store already reading 3 the call is refused. -/
theorem promptBudget_step_spec_witness :
    (addReflectionPrompt c8StoreEmpty "2024-05-01" "" 0).inserted = true
      ∧ (addReflectionPrompt c8StoreFull "2024-05-01" "" 0).inserted = false :=
  ⟨((promptBudget_step_spec c8StoreEmpty "2024-05-01" "" 0).1 (by decide)).1,
   ((promptBudget_step_spec c8StoreFull "2024-05-01" "" 0).2 (by decide)).1⟩

/-! ### C6: calendar grid -/

/-- C6: the calendar projector emits exactly `K` leading blank cells (no date,
not marked present) where `K` is the weekday index of the month's first day,
followed by exactly `N` dated cells in day order where `N` is the month's day
count — `K + N` cells in total — and each dated cell's `isFuture` flag is the
lexicographic comparison `today < dateKey` of the zero-padded date keys. -/
theorem diaryMonthDays_grid_spec (year month : ℕ) (journalList : List JournalEntry)
    (today : String) :
    (diaryMonthDays year month journalList today).length
        = dayOfWeek ⟨year, month, 1⟩ + daysInMonth year month
      ∧ (diaryMonthDays year month journalList today).take (dayOfWeek ⟨year, month, 1⟩)
          = List.replicate (dayOfWeek ⟨year, month, 1⟩) blankCell
      ∧ ∀ j, j < daysInMonth year month →
          ((diaryMonthDays year month journalList today).getD
              (dayOfWeek ⟨year, month, 1⟩ + j) blankCell).day = j + 1
            ∧ ((diaryMonthDays year month journalList today).getD
                (dayOfWeek ⟨year, month, 1⟩ + j) blankCell).date
              = dateInputValue ⟨year, month, j + 1⟩
            ∧ ((diaryMonthDays year month journalList today).getD
                (dayOfWeek ⟨year, month, 1⟩ + j) blankCell).isFuture
              = jsStrLt today (dateInputValue ⟨year, month, j + 1⟩) := by
  refine ⟨?_, ?_, ?_⟩
  · simp [diaryMonthDays]
  · rw [diaryMonthDays]
    rw [List.take_append_of_le_length (by simp)]
    simp
  · intro j hj
    have hcell : (diaryMonthDays year month journalList today).getD
        (dayOfWeek ⟨year, month, 1⟩ + j) blankCell
        = monthDayCell year month journalList today (j + 1) := by
      rw [diaryMonthDays, List.getD_eq_getElem?_getD, List.getElem?_append_right (by simp)]
      simp [hj]
    rw [hcell]
    exact ⟨rfl, rfl, rfl⟩

/-- Witness for `diaryMonthDays_grid_spec`: the first dated cell of May 2024. -/
theorem diaryMonthDays_grid_spec_witness :
    ((diaryMonthDays 2024 5 [] "2024-05-02").getD
        (dayOfWeek ⟨2024, 5, 1⟩ + 0) blankCell).day = 0 + 1
      ∧ ((diaryMonthDays 2024 5 [] "2024-05-02").getD
          (dayOfWeek ⟨2024, 5, 1⟩ + 0) blankCell).date = dateInputValue ⟨2024, 5, 0 + 1⟩
      ∧ ((diaryMonthDays 2024 5 [] "2024-05-02").getD
          (dayOfWeek ⟨2024, 5, 1⟩ + 0) blankCell).isFuture
        = jsStrLt "2024-05-02" (dateInputValue ⟨2024, 5, 0 + 1⟩) :=
  (diaryMonthDays_grid_spec 2024 5 [] "2024-05-02").2.2 0 (by decide)

/-! ### Decimal rendering and lexicographic order of date keys -/

theorem digitsFuel_congr :
    ∀ fuel1 fuel2 n, n ≤ fuel1 → n ≤ fuel2 → digitsFuel fuel1 n = digitsFuel fuel2 n := by
  intro fuel1
  induction fuel1 with
  | zero =>
      intro fuel2 n h1 _
      interval_cases n
      cases fuel2 <;> simp [digitsFuel]
  | succ f ih =>
      intro fuel2 n h1 h2
      rcases Nat.eq_zero_or_pos n with hn | hn
      · subst hn
        cases fuel2 <;> simp [digitsFuel]
      · rcases fuel2 with _ | f2
        · omega
        · rw [digitsFuel, digitsFuel, if_neg (by omega), if_neg (by omega)]
          have hdiv : n / 10 < n := Nat.div_lt_self hn (by omega)
          exact congrArg _ (ih f2 (n / 10) (by omega) (by omega))

theorem natDigits_succ (n : ℕ) (h : 1 ≤ n) :
    natDigits n = n % 10 :: natDigits (n / 10) := by
  rcases n with _ | m
  · omega
  · rw [natDigits, digitsFuel, if_neg (by omega)]
    have hdiv : (m + 1) / 10 < m + 1 := Nat.div_lt_self (by omega) (by omega)
    exact congrArg _ (digitsFuel_congr m ((m + 1) / 10) ((m + 1) / 10) (by omega) le_rfl)

theorem natDigits_zero : natDigits 0 = [] := rfl

theorem natDigits_lt_ten (n : ℕ) (h1 : 1 ≤ n) (h2 : n < 10) : natDigits n = [n] := by
  rw [natDigits_succ n h1, Nat.mod_eq_of_lt h2, Nat.div_eq_of_lt h2, natDigits_zero]

theorem natDigits_lt_hundred (n : ℕ) (h1 : 10 ≤ n) (h2 : n < 100) :
    natDigits n = [n % 10, n / 10] := by
  rw [natDigits_succ n (by omega), natDigits_lt_ten (n / 10) (by omega) (by omega)]

theorem natDigits_four (n : ℕ) (h1 : 1000 ≤ n) (h2 : n ≤ 9999) :
    natDigits n = [n % 10, n / 10 % 10, n / 100 % 10, n / 1000] := by
  rw [natDigits_succ n (by omega), natDigits_succ (n / 10) (by omega),
    natDigits_lt_hundred (n / 10 / 10) (by omega) (by omega)]
  have e1 : n / 10 / 10 = n / 100 := by omega
  have e2 : n / 100 / 10 = n / 1000 := by omega
  rw [e1]
  rw [show n / 100 % 10 :: [n / 100 / 10] = n / 100 % 10 :: [n / 1000] by rw [e2]]

/-- The two zero-padded decimal digit characters of a number below 100. -/
def twoDigitChars (n : ℕ) : List Char :=
  [digitChar (n / 10 % 10), digitChar (n % 10)]

theorem pad2_data (n : ℕ) (h : n < 100) : (pad2 n).data = twoDigitChars n := by
  rcases Nat.lt_or_ge n 1 with h0 | h1
  · interval_cases n
    decide
  · rcases Nat.lt_or_ge n 10 with h10 | h10
    · rw [pad2, natRepr, if_neg (by omega), natDigits_lt_ten n h1 h10]
      show [digitChar 0, digitChar n] = twoDigitChars n
      rw [twoDigitChars, Nat.mod_eq_of_lt h10]
      rw [show n / 10 % 10 = 0 by omega]
    · rw [pad2, natRepr, if_neg (by omega), natDigits_lt_hundred n h10 h]
      show [digitChar (n / 10), digitChar (n % 10)] = twoDigitChars n
      rw [twoDigitChars, show n / 10 % 10 = n / 10 by omega]

theorem natRepr_year_data (y : ℕ) (h1 : 1000 ≤ y) (h2 : y ≤ 9999) :
    (natRepr y).data = twoDigitChars (y / 100) ++ twoDigitChars (y % 100) := by
  rw [natRepr, if_neg (by omega), natDigits_four y h1 h2]
  show [digitChar (y / 1000), digitChar (y / 100 % 10), digitChar (y / 10 % 10),
      digitChar (y % 10)] = _
  rw [twoDigitChars, twoDigitChars]
  rw [show y / 100 / 10 % 10 = y / 1000 by omega,
    show y % 100 / 10 % 10 = y / 10 % 10 by omega, show y % 100 % 10 = y % 10 by omega]
  rfl

theorem digitChar_lt_iff :
    ∀ a, a < 10 → ∀ b, b < 10 → (digitChar a < digitChar b ↔ a < b) := by decide

theorem digitChar_inj :
    ∀ a, a < 10 → ∀ b, b < 10 → (digitChar a = digitChar b ↔ a = b) := by decide

theorem chListLt_cons_same (c : Char) (l1 l2 : List Char) :
    chListLt (c :: l1) (c :: l2) = chListLt l1 l2 := by
  rw [chListLt]
  simp [lt_irrefl]

theorem chListLt_append_same (p l1 l2 : List Char) :
    chListLt (p ++ l1) (p ++ l2) = chListLt l1 l2 := by
  induction p with
  | nil => rfl
  | cons c rest ih => simpa [chListLt_cons_same] using ih

theorem chListLt_cons_lt {a b : Char} (h : a < b) (l1 l2 : List Char) :
    chListLt (a :: l1) (b :: l2) = true := by
  rw [chListLt, if_pos h]

theorem chListLt_twoDigit {a b : ℕ} (ha : a < 100) (hb : b < 100) (h : a < b)
    (r1 r2 : List Char) :
    chListLt (twoDigitChars a ++ r1) (twoDigitChars b ++ r2) = true := by
  rw [twoDigitChars, twoDigitChars]
  rcases Nat.lt_or_ge (a / 10 % 10) (b / 10 % 10) with hlt | hge
  · exact chListLt_cons_lt ((digitChar_lt_iff _ (by omega) _ (by omega)).mpr hlt) _ _
  · have heq : a / 10 % 10 = b / 10 % 10 := by omega
    rw [heq]
    simp only [List.cons_append]
    rw [chListLt_cons_same]
    exact chListLt_cons_lt ((digitChar_lt_iff _ (by omega) _ (by omega)).mpr (by omega)) _ _

theorem chListLt_asymm : ∀ l1 l2 : List Char, chListLt l1 l2 = true → chListLt l2 l1 = false := by
  intro l1
  induction l1 with
  | nil =>
      intro l2 h
      cases l2 with
      | nil => exact absurd h (by rw [show chListLt [] [] = false from rfl]; simp)
      | cons b bs => rfl
  | cons a as ih =>
      intro l2 h
      cases l2 with
      | nil => exact absurd h (by rw [show chListLt (a :: as) [] = false from rfl]; simp)
      | cons b bs =>
          rw [chListLt] at h ⊢
          rcases lt_trichotomy a b with hab | hab | hab
          · rw [if_neg (asymm hab), if_pos hab]
          · subst hab
            rw [if_neg (lt_irrefl a), if_neg (lt_irrefl a)] at h ⊢
            exact ih bs h
          · rw [if_neg (asymm hab), if_pos hab] at h
            exact absurd h (by simp)

theorem chListLt_irrefl : ∀ l : List Char, chListLt l l = false := by
  intro l
  induction l with
  | nil => rfl
  | cons a as ih => rw [chListLt_cons_same]; exact ih

theorem dateInputValue_data (d : CivilDate) (hy1 : 1000 ≤ d.year) (hy2 : d.year ≤ 9999)
    (hm : d.month < 100) (hd : d.day < 100) :
    (dateInputValue d).data
      = twoDigitChars (d.year / 100) ++ (twoDigitChars (d.year % 100)
          ++ ('-' :: (twoDigitChars d.month ++ ('-' :: twoDigitChars d.day)))) := by
  rw [dateInputValue]
  simp only [String.data_append, natRepr_year_data d.year hy1 hy2, pad2_data d.month hm,
    pad2_data d.day hd, show ("-" : String).data = ['-'] from rfl]
  simp [List.append_assoc]

theorem dateKey_lt_of_toKeyNat {d1 d2 : CivilDate}
    (h11 : 1000 ≤ d1.year) (h12 : d1.year ≤ 9999) (h21 : 1000 ≤ d2.year) (h22 : d2.year ≤ 9999)
    (hm1 : d1.month < 100) (hm2 : d2.month < 100) (hd1 : d1.day < 100) (hd2 : d2.day < 100)
    (h : toKeyNat d1 < toKeyNat d2) :
    jsStrLt (dateInputValue d1) (dateInputValue d2) = true := by
  rw [jsStrLt, dateInputValue_data d1 h11 h12 hm1 hd1, dateInputValue_data d2 h21 h22 hm2 hd2]
  rw [toKeyNat, toKeyNat] at h
  have hyy : d1.year < d2.year
      ∨ (d1.year = d2.year ∧ (d1.month < d2.month
          ∨ (d1.month = d2.month ∧ d1.day < d2.day))) := by omega
  rcases hyy with hy | ⟨hyeq, hmm⟩
  · rcases Nat.lt_or_ge (d1.year / 100) (d2.year / 100) with hc | hc
    · exact chListLt_twoDigit (by omega) (by omega) hc _ _
    · have hceq : d1.year / 100 = d2.year / 100 := by omega
      rw [hceq, chListLt_append_same]
      exact chListLt_twoDigit (by omega) (by omega) (by omega) _ _
  · rw [hyeq, chListLt_append_same, chListLt_append_same, chListLt_cons_same]
    rcases hmm with hm | ⟨hmeq, hd⟩
    · exact chListLt_twoDigit hm1 hm2 hm _ _
    · rw [hmeq, chListLt_append_same, chListLt_cons_same]
      simpa using chListLt_twoDigit hd1 hd2 hd [] []

theorem jsStrLe_of_lt {s t : String} (h : jsStrLt s t = true) : jsStrLe s t = true := by
  rw [jsStrLe, jsStrLt, chListLt_asymm s.data t.data h]
  rfl

theorem jsStrLe_swap {s t : String} (h : jsStrLe s t = false) : jsStrLe t s = true := by
  rw [jsStrLe, jsStrLt] at h ⊢
  rcases hc : chListLt t.data s.data with hv | hv
  · rw [hc] at h
    exact absurd h (by simp)
  · rw [chListLt_asymm t.data s.data hc]
    rfl

theorem daysInMonth_bounds (y m : ℕ) : 28 ≤ daysInMonth y m ∧ daysInMonth y m ≤ 31 := by
  rw [daysInMonth]
  split_ifs <;> omega

theorem prevDay_valid {d : CivilDate} (h : ValidDate d) (hy : 2 ≤ d.year) :
    ValidDate (prevDay d) := by
  obtain ⟨hm1, hm2, hd1, hd2, hy1⟩ := h
  have hb := daysInMonth_bounds d.year (d.month - 1)
  have hb2 := daysInMonth_bounds (d.year - 1) 12
  have h12 : daysInMonth (d.year - 1) 12 = 31 := rfl
  rw [ValidDate, prevDay]
  split_ifs with h1 h2
  · show 1 ≤ d.month ∧ d.month ≤ 12 ∧ 1 ≤ d.day - 1
        ∧ d.day - 1 ≤ daysInMonth d.year d.month ∧ 1 ≤ d.year
    omega
  · show 1 ≤ d.month - 1 ∧ d.month - 1 ≤ 12 ∧ 1 ≤ daysInMonth d.year (d.month - 1)
        ∧ daysInMonth d.year (d.month - 1) ≤ daysInMonth d.year (d.month - 1) ∧ 1 ≤ d.year
    omega
  · show 1 ≤ 12 ∧ 12 ≤ 12 ∧ 1 ≤ 31 ∧ 31 ≤ daysInMonth (d.year - 1) 12 ∧ 1 ≤ d.year - 1
    omega

theorem prevDay_year (d : CivilDate) :
    d.year - 1 ≤ (prevDay d).year ∧ (prevDay d).year ≤ d.year := by
  rw [prevDay]
  split_ifs <;> dsimp only <;> omega

theorem prevDay_keyLt {d : CivilDate} (h : ValidDate d) : toKeyNat (prevDay d) < toKeyNat d := by
  obtain ⟨hm1, hm2, hd1, hd2, hy1⟩ := h
  have hb := daysInMonth_bounds d.year (d.month - 1)
  rw [prevDay]
  split_ifs with h1 h2 <;> rw [toKeyNat, toKeyNat] <;> simp only <;> omega

theorem subDays_facts : ∀ (n : ℕ) (d : CivilDate), ValidDate d → n + 1 ≤ d.year →
    ValidDate (subDays d n) ∧ d.year - n ≤ (subDays d n).year ∧ (subDays d n).year ≤ d.year
      ∧ (0 < n → toKeyNat (subDays d n) < toKeyNat d) := by
  intro n
  induction n with
  | zero =>
      intro d h hy
      have h0 : subDays d 0 = d := rfl
      rw [h0]
      exact ⟨h, by omega, le_rfl, by omega⟩
  | succ k ih =>
      intro d h hy
      have hk := ih d h (by omega)
      have hvp : ValidDate (subDays d k) := hk.1
      have hy2 : 2 ≤ (subDays d k).year := by omega
      have hs : subDays d (k + 1) = prevDay (subDays d k) :=
        Function.iterate_succ_apply' prevDay k d
      have hpy := prevDay_year (subDays d k)
      refine ⟨?_, ?_, ?_, ?_⟩
      · rw [hs]
        exact prevDay_valid hvp hy2
      · rw [hs]
        omega
      · rw [hs]
        omega
      · intro _
        rw [hs]
        have h1 := prevDay_keyLt hvp
        rcases Nat.eq_zero_or_pos k with hk0 | hp
        · subst hk0
          simpa [subDays] using h1
        · have h2 := hk.2.2.2 hp
          omega

theorem subDays_keyLt_of_lt {d : CivilDate} (h : ValidDate d) {k1 k2 N : ℕ}
    (hN : N + 1 ≤ d.year) (hk12 : k1 < k2) (hk2 : k2 ≤ N) :
    toKeyNat (subDays d k2) < toKeyNat (subDays d k1) := by
  have hsplit : subDays d k2 = subDays (subDays d k1) (k2 - k1) := by
    rw [subDays, subDays, subDays, ← Function.iterate_add_apply]
    rw [show k2 - k1 + k1 = k2 by omega]
  have hbase := subDays_facts k1 d h (by omega)
  have hstep := subDays_facts (k2 - k1) (subDays d k1) hbase.1 (by omega)
  rw [hsplit]
  exact hstep.2.2.2 (by omega)

/-! ### C10: window bounds are ordered -/

/-- Side conditions under which the window-bound ordering is stated: the
selected month and the "now" anchor are genuine calendar data with 4-digit
years (so that the `YYYY-MM-DD` keys are lexicographically sortable). -/
def boundsHyp (range : DiaryAnalysisRange) (now : CivilDate) : Prop :=
  match range with
  | .monthly year month => 1000 ≤ year ∧ year ≤ 9999 ∧ 1 ≤ month ∧ month ≤ 12
  | .custom _ _ => True
  | .weekly => ValidDate now ∧ 1007 ≤ now.year ∧ now.year ≤ 9999

/-- C10: for every analysis range kind — trailing weekly, calendar month, or a
custom pair (also a reversed one) — the produced window bounds satisfy
`start <= end` under the lexicographic comparison of the zero-padded date
keys. -/
theorem diaryAnalysisBounds_ordered (range : DiaryAnalysisRange) (now : CivilDate)
    (h : boundsHyp range now) :
    jsStrLe (diaryAnalysisBounds range now).start
      (diaryAnalysisBounds range now).endDate = true := by
  cases range with
  | monthly year month =>
      obtain ⟨h1, h2, h3, h4⟩ := h
      have hb := daysInMonth_bounds year month
      simp only [diaryAnalysisBounds]
      apply jsStrLe_of_lt
      exact dateKey_lt_of_toKeyNat h1 h2 h1 h2 (by show month < 100; omega)
        (by show month < 100; omega) (by show (1 : ℕ) < 100; omega)
        (by show daysInMonth year month < 100; omega)
        (by show year * 10000 + month * 100 + 1 < year * 10000 + month * 100
              + daysInMonth year month
            omega)
  | custom s e =>
      simp only [diaryAnalysisBounds]
      generalize (if s = "" then dateInputValue now else s) = start
      generalize (if e = "" then start else e) = stop
      cases hc : jsStrLe start stop with
      | false =>
          simp [hc]
          exact jsStrLe_swap hc
      | true =>
          simp [hc]
  | weekly =>
      obtain ⟨hval, h1, h2⟩ := h
      have hfacts := subDays_facts 6 now hval (by omega)
      obtain ⟨hm1, hm2, hd1, hd2, hy⟩ := hfacts.1
      obtain ⟨am1, am2, ad1, ad2, ay⟩ := hval
      have hb1 := daysInMonth_bounds (subDays now 6).year (subDays now 6).month
      have hb2 := daysInMonth_bounds now.year now.month
      have hy1 := hfacts.2.1
      have hy2 := hfacts.2.2.1
      simp only [diaryAnalysisBounds]
      apply jsStrLe_of_lt
      exact dateKey_lt_of_toKeyNat (by omega) (by omega) (by omega) (by omega) (by omega)
        (by omega) (by omega) (by omega) (hfacts.2.2.2 (by omega))

/-- Witness for `diaryAnalysisBounds_ordered`: the trailing week ending
2024-05-02. -/
theorem diaryAnalysisBounds_ordered_witness :
    jsStrLe (diaryAnalysisBounds .weekly ⟨2024, 5, 2⟩).start
      (diaryAnalysisBounds .weekly ⟨2024, 5, 2⟩).endDate = true :=
  diaryAnalysisBounds_ordered .weekly ⟨2024, 5, 2⟩ ⟨by decide, by decide, by decide⟩

/-! ### C4: streak -/

/-- Presence of a record on a given date key in the full record set, as the
code tests it (`dateSet.has(key)` over all record dates). -/
def hasEntryOn (journalList : List JournalEntry) (key : String) : Bool :=
  (journalList.map (fun entry => entry.date)).contains key

theorem streakLoop_spec (dateSet : List String) (today : CivilDate) :
    ∀ (fuel acc : ℕ),
      (∀ k < acc, dateSet.contains (dateInputValue (subDays today k)) = true) →
      acc ≤ streakLoop dateSet today fuel acc
        ∧ streakLoop dateSet today fuel acc ≤ acc + fuel
        ∧ (∀ k < streakLoop dateSet today fuel acc,
            dateSet.contains (dateInputValue (subDays today k)) = true)
        ∧ (streakLoop dateSet today fuel acc < acc + fuel →
            dateSet.contains
              (dateInputValue (subDays today (streakLoop dateSet today fuel acc)))
              = false) := by
  intro fuel
  induction fuel with
  | zero =>
      intro acc hacc
      rw [streakLoop]
      exact ⟨le_rfl, by omega, hacc, by omega⟩
  | succ f ih =>
      intro acc hacc
      rw [streakLoop]
      cases hp : dateSet.contains (dateInputValue (subDays today acc)) with
      | true =>
          simp only [hp, if_true]
          have hnext : ∀ k < acc + 1,
              dateSet.contains (dateInputValue (subDays today k)) = true := by
            intro k hk
            rcases Nat.lt_or_ge k acc with h | h
            · exact hacc k h
            · rw [show k = acc by omega]
              exact hp
          have hr := ih (acc + 1) hnext
          exact ⟨by omega, by omega, hr.2.2.1, fun hlt => hr.2.2.2 (by omega)⟩
      | false =>
          simp only [hp, Bool.false_eq_true, if_false]
          refine ⟨le_rfl, by omega, hacc, fun _ => ?_⟩
          first
          | exact hp
          | trivial

theorem subDays_key_ne {today : CivilDate} (hval : ValidDate today) {N k1 k2 : ℕ}
    (hy1 : 1000 + N ≤ today.year) (hy2 : today.year ≤ 9999)
    (h12 : k1 < k2) (hk2 : k2 ≤ N) :
    dateInputValue (subDays today k2) ≠ dateInputValue (subDays today k1) := by
  have hkey := subDays_keyLt_of_lt hval (by omega) h12 hk2
  have hf1 := subDays_facts k1 today hval (by omega)
  have hf2 := subDays_facts k2 today hval (by omega)
  obtain ⟨m1a, m1b, d1a, d1b, y1⟩ := hf1.1
  obtain ⟨m2a, m2b, d2a, d2b, y2⟩ := hf2.1
  have hq1 := hf1.2.1
  have hq2 := hf2.2.1
  have hr1 := hf1.2.2.1
  have hr2 := hf2.2.2.1
  have hb1 := daysInMonth_bounds (subDays today k1).year (subDays today k1).month
  have hb2 := daysInMonth_bounds (subDays today k2).year (subDays today k2).month
  have hlt := dateKey_lt_of_toKeyNat (by omega) (by omega) (by omega) (by omega)
    (by omega) (by omega) (by omega) (by omega) hkey
  intro heq
  rw [heq, jsStrLt, chListLt_irrefl] at hlt
  exact absurd hlt (by simp)

/-- Record set: today (2024-05-10) plus the three preceding days. -/
def c4RecordsFour : List JournalEntry :=
  [⟨"s1", "2024-05-07", 5, 5, 5, 5, [], "", "", none⟩,
   ⟨"s2", "2024-05-08", 6, 5, 5, 5, [], "", "", none⟩,
   ⟨"s3", "2024-05-09", 7, 5, 5, 5, [], "", "", none⟩,
   ⟨"s4", "2024-05-10", 8, 5, 5, 5, [], "", "", none⟩]

/-- Record set with a gap one day back: today, today-2, today-3. -/
def c4RecordsGap : List JournalEntry :=
  [⟨"s1", "2024-05-07", 5, 5, 5, 5, [], "", "", none⟩,
   ⟨"s2", "2024-05-08", 6, 5, 5, 5, [], "", "", none⟩,
   ⟨"s4", "2024-05-10", 8, 5, 5, 5, [], "", "", none⟩]

/-- C4: the streak counts the consecutive days walking backward from today on
which the full (unrestricted) record set has an entry, stopping at the first
missing day: every day strictly before the streak index is present and the
day at the streak index is absent.  The record set with today and the three
preceding days yields 4, the set with a gap one day back yields 1, and the
empty set yields 0. -/
theorem diaryInsights_streak_spec :
    (∀ (journalList : List JournalEntry) (today : CivilDate),
        ValidDate today → 1002 + journalList.length ≤ today.year → today.year ≤ 9999 →
          (∀ k < (diaryInsights journalList today).streak,
              hasEntryOn journalList (dateInputValue (subDays today k)) = true)
            ∧ hasEntryOn journalList
                (dateInputValue (subDays today ((diaryInsights journalList today).streak)))
              = false)
      ∧ (diaryInsights c4RecordsFour ⟨2024, 5, 10⟩).streak = 4
      ∧ (diaryInsights c4RecordsGap ⟨2024, 5, 10⟩).streak = 1
      ∧ (diaryInsights ([] : List JournalEntry) ⟨2024, 5, 10⟩).streak = 0 := by
  refine ⟨?_, by decide, by decide, by decide⟩
  intro journalList today hval hy1 hy2
  cases journalList with
  | nil =>
      refine ⟨fun k hk => absurd hk (by simp [diaryInsights]), rfl⟩
  | cons v0 rest =>
      have hstreak : (diaryInsights (v0 :: rest) today).streak
          = streakLoop ((v0 :: rest).map (fun entry => entry.date)) today
              (((v0 :: rest).map (fun entry => entry.date)).length + 1) 0 := rfl
      set dateSet := (v0 :: rest).map (fun entry => entry.date) with hds
      have hn : dateSet.length = (v0 :: rest).length := by simp [hds]
      have hspec := streakLoop_spec dateSet today (dateSet.length + 1) 0 (by omega)
      set r := streakLoop dateSet today (dateSet.length + 1) 0 with hr
      have hrle : r ≤ dateSet.length + 1 := by omega
      have hcase : r < dateSet.length + 1 := by
        by_contra hge
        have hreq : r = dateSet.length + 1 := by omega
        have hall : ∀ k < dateSet.length + 1,
            dateSet.contains (dateInputValue (subDays today k)) = true := by
          intro k hk
          exact hspec.2.2.1 k (by omega)
        have hsub : ((List.range (dateSet.length + 1)).map
            (fun k => dateInputValue (subDays today k))) ⊆ dateSet := by
          intro x hx
          rcases List.mem_map.mp hx with ⟨k, hkmem, rfl⟩
          have hk := List.mem_range.mp hkmem
          have := hall k hk
          simpa using this
        have hnodup : ((List.range (dateSet.length + 1)).map
            (fun k => dateInputValue (subDays today k))).Nodup := by
          apply List.Pairwise.map
            (R := fun a b : ℕ => a < b ∧ b < dateSet.length + 1)
          · intro a b hab
            exact (subDays_key_ne hval
              (by omega : 1000 + dateSet.length ≤ today.year) hy2 hab.1
              (by omega)).symm
          · refine (List.pairwise_lt_range _).imp_of_mem ?_
            intro a b _ hb hab
            exact ⟨hab, List.mem_range.mp hb⟩
        have hcard1 : ((List.range (dateSet.length + 1)).map
            (fun k => dateInputValue (subDays today k))).toFinset.card
            = dateSet.length + 1 := by
          rw [List.toFinset_card_of_nodup hnodup]
          simp
        have hcard2 : ((List.range (dateSet.length + 1)).map
            (fun k => dateInputValue (subDays today k))).toFinset.card
            ≤ dateSet.length := by
          calc ((List.range (dateSet.length + 1)).map
              (fun k => dateInputValue (subDays today k))).toFinset.card
              ≤ dateSet.toFinset.card := by
                apply Finset.card_le_card
                intro x hx
                simp only [List.mem_toFinset] at *
                exact hsub hx
            _ ≤ dateSet.length := dateSet.toFinset_card_le
        omega
      refine ⟨?_, ?_⟩
      · intro k hk
        show dateSet.contains _ = true
        exact hspec.2.2.1 k hk
      · rw [show (diaryInsights (v0 :: rest) today).streak = r from hstreak]
        show dateSet.contains _ = false
        exact hspec.2.2.2 (by omega)

/-- Witness for the general part of `diaryInsights_streak_spec`, at the
four-day record set and today 2024-05-10. -/
theorem diaryInsights_streak_spec_witness :
    (∀ k < (diaryInsights c4RecordsFour ⟨2024, 5, 10⟩).streak,
        hasEntryOn c4RecordsFour (dateInputValue (subDays ⟨2024, 5, 10⟩ k)) = true)
      ∧ hasEntryOn c4RecordsFour
          (dateInputValue (subDays ⟨2024, 5, 10⟩
            ((diaryInsights c4RecordsFour ⟨2024, 5, 10⟩).streak))) = false :=
  diaryInsights_streak_spec.1 c4RecordsFour ⟨2024, 5, 10⟩ (by decide) (by decide) (by decide)

/-! ### C5: extremum records -/

theorem foldlMin_split (key : JournalEntry → ℤ) :
    ∀ (l : List JournalEntry) (acc : JournalEntry),
      ∃ l1 l2,
        acc :: l = l1 ++ (l.foldl (fun mn e => if key e < key mn then e else mn) acc) :: l2
          ∧ (∀ e ∈ l1,
              key (l.foldl (fun mn e => if key e < key mn then e else mn) acc) < key e)
          ∧ (∀ e ∈ l2,
              key (l.foldl (fun mn e => if key e < key mn then e else mn) acc) ≤ key e) := by
  intro l
  induction l with
  | nil =>
      intro acc
      exact ⟨[], [], rfl, by simp, by simp⟩
  | cons e t ih =>
      intro acc
      rw [List.foldl_cons]
      by_cases he : key e < key acc
      · rw [if_pos he]
        obtain ⟨l1, l2, heq, h1, h2⟩ := ih e
        set r := t.foldl (fun mn e => if key e < key mn then e else mn) e with hrdef
        have hre : key r ≤ key e := by
          rcases l1 with _ | ⟨a, l1t⟩
          · have := (List.cons.injEq _ _ _ _).mp heq
            rw [this.1]
          · have := (List.cons.injEq _ _ _ _).mp heq
            exact le_of_lt (h1 e (this.1 ▸ List.mem_cons_self a l1t))
        refine ⟨acc :: l1, l2, by rw [List.cons_append, ← heq], ?_, h2⟩
        intro x hx
        rcases List.mem_cons.mp hx with rfl | hx2
        · omega
        · exact h1 x hx2
      · rw [if_neg he]
        obtain ⟨l1, l2, heq, h1, h2⟩ := ih acc
        set r := t.foldl (fun mn e => if key e < key mn then e else mn) acc with hrdef
        rcases l1 with _ | ⟨a, l1t⟩
        · have hinj := (List.cons.injEq _ _ _ _).mp heq
          refine ⟨[], e :: l2, ?_, by simp, ?_⟩
          · rw [List.nil_append, ← hinj.1, hinj.2]
          · intro x hx
            rcases List.mem_cons.mp hx with rfl | hx2
            · rw [← hinj.1]
              omega
            · exact h2 x hx2
        · have hinj := (List.cons.injEq _ _ _ _).mp heq
          refine ⟨acc :: e :: l1t, l2, ?_, ?_, h2⟩
          · rw [List.cons_append, List.cons_append, hinj.2]
            rfl
          · intro x hx
            have hacc : key r < key acc := h1 a (List.mem_cons_self a l1t) |>.trans_le
              (le_of_eq (by rw [hinj.1]))
            rcases List.mem_cons.mp hx with rfl | hx2
            · exact hacc
            · rcases List.mem_cons.mp hx2 with rfl | hx3
              · omega
              · exact h1 x (List.mem_cons_of_mem a hx3)

/-- C5: on the empty record set `diaryInsights` returns the "-" sentinels; on
a non-empty record set it formats the first-encountered record attaining the
strict minimum mood as `toughestDay` (every record before it is strictly
larger, every record after it is no smaller) and the first-encountered record
attaining the strict maximum mood as `strongestDay`, over the entire record
set. -/
theorem diaryInsights_extrema_spec :
    (∀ today : CivilDate, diaryInsights [] today
        = { streak := 0, toughestDay := "-", strongestDay := "-" })
      ∧ ∀ (v0 : JournalEntry) (rest : List JournalEntry) (today : CivilDate),
          (∃ l1 l2 mn, v0 :: rest = l1 ++ mn :: l2
              ∧ (diaryInsights (v0 :: rest) today).toughestDay
                  = mn.date ++ " (" ++ intRepr mn.mood ++ "/10)"
              ∧ (∀ e ∈ l1, mn.mood < e.mood) ∧ (∀ e ∈ l2, mn.mood ≤ e.mood))
            ∧ (∃ l1 l2 mx, v0 :: rest = l1 ++ mx :: l2
              ∧ (diaryInsights (v0 :: rest) today).strongestDay
                  = mx.date ++ " (" ++ intRepr mx.mood ++ "/10)"
              ∧ (∀ e ∈ l1, e.mood < mx.mood) ∧ (∀ e ∈ l2, e.mood ≤ mx.mood)) := by
  refine ⟨fun today => rfl, fun v0 rest today => ⟨?_, ?_⟩⟩
  · have hproj : (diaryInsights (v0 :: rest) today).toughestDay
        = (minMoodEntry v0 (v0 :: rest)).date ++ " ("
          ++ intRepr (minMoodEntry v0 (v0 :: rest)).mood ++ "/10)" := rfl
    have hstep : minMoodEntry v0 (v0 :: rest) = minMoodEntry v0 rest := by
      rw [minMoodEntry, List.foldl_cons, if_neg (lt_irrefl v0.mood)]
      rfl
    have hfold : minMoodEntry v0 rest
        = rest.foldl (fun mn e =>
            if (fun x : JournalEntry => x.mood) e < (fun x : JournalEntry => x.mood) mn
            then e else mn) v0 := rfl
    obtain ⟨l1, l2, heq, h1, h2⟩ := foldlMin_split (fun e => e.mood) rest v0
    rw [← hfold] at heq h1 h2
    exact ⟨l1, l2, minMoodEntry v0 rest, heq, by rw [hproj, hstep], h1, h2⟩
  · have hproj : (diaryInsights (v0 :: rest) today).strongestDay
        = (maxMoodEntry v0 (v0 :: rest)).date ++ " ("
          ++ intRepr (maxMoodEntry v0 (v0 :: rest)).mood ++ "/10)" := rfl
    have hfun : (fun mx (e : JournalEntry) => if e.mood > mx.mood then e else mx)
        = (fun mn (e : JournalEntry) =>
            if (fun x : JournalEntry => -x.mood) e < (fun x : JournalEntry => -x.mood) mn
            then e else mn) := by
      funext mx e
      exact if_congr ⟨fun h => by simpa using h, fun h => by simpa using h⟩ rfl rfl
    have hstep : maxMoodEntry v0 (v0 :: rest) = maxMoodEntry v0 rest := by
      rw [maxMoodEntry, List.foldl_cons, if_neg (lt_irrefl v0.mood)]
      rfl
    have hfold : maxMoodEntry v0 rest
        = rest.foldl (fun mn e =>
            if (fun x : JournalEntry => -x.mood) e < (fun x : JournalEntry => -x.mood) mn
            then e else mn) v0 := by
      rw [maxMoodEntry, hfun]
    obtain ⟨l1, l2, heq, h1, h2⟩ := foldlMin_split (fun e => -e.mood) rest v0
    rw [← hfold] at heq h1 h2
    exact ⟨l1, l2, maxMoodEntry v0 rest, heq, by rw [hproj, hstep],
      fun e he => by have := h1 e he; omega, fun e he => by have := h2 e he; omega⟩

/-- Witness for `diaryInsights_extrema_spec`: the two-record scenario set. -/
theorem diaryInsights_extrema_spec_witness :
    (∃ l1 l2 mn, c2EntryA :: [c2EntryB] = l1 ++ mn :: l2
        ∧ (diaryInsights (c2EntryA :: [c2EntryB]) ⟨2024, 5, 10⟩).toughestDay
            = mn.date ++ " (" ++ intRepr mn.mood ++ "/10)"
        ∧ (∀ e ∈ l1, mn.mood < e.mood) ∧ (∀ e ∈ l2, mn.mood ≤ e.mood))
      ∧ (∃ l1 l2 mx, c2EntryA :: [c2EntryB] = l1 ++ mx :: l2
        ∧ (diaryInsights (c2EntryA :: [c2EntryB]) ⟨2024, 5, 10⟩).strongestDay
            = mx.date ++ " (" ++ intRepr mx.mood ++ "/10)"
        ∧ (∀ e ∈ l1, e.mood < mx.mood) ∧ (∀ e ∈ l2, e.mood ≤ mx.mood)) :=
  diaryInsights_extrema_spec.2 c2EntryA [c2EntryB] ⟨2024, 5, 10⟩

end AiCounsel
